import Mathlib

/-!
Verification of the drakonis-guard access-control library: a shallow
embedding of `core/types`, `core/access-control` and `core/policy-builder`,
followed by theorems about the decision algorithm and the builder.

JavaScript objects are modelled as partial maps `String → Option α`
(property lookup on a missing key yields `undefined`, i.e. `none`);
exceptions are modelled with `Except`.
-/

namespace DrakonisGuard

/-- An exception surfaced by a JavaScript evaluation: either a runtime
`TypeError` raised by the engine, or an arbitrary value thrown by
user-supplied code (the payload is modelled by a `String`). -/
inductive JSException where
  | typeError (msg : String)
  | thrown (payload : String)
deriving DecidableEq

/-- `PermissionCheck` from `core/types`: `boolean | ((user, data?) => boolean)`.
A dynamic predicate receives the full user value and the optional data and may
throw, hence the `Except` codomain. -/
inductive PermissionCheck (Usr D : Type) where
  | static (b : Bool)
  | dynamic (f : Usr → Option D → Except JSException Bool)

/-- `ResourcePolicy` from `core/types`: an object mapping action names to
permission checks. -/
def ResourcePolicy (Usr D : Type) := String → Option (PermissionCheck Usr D)

/-- `RolePolicy` from `core/types`: an object mapping resource names to
resource policies. -/
def RolePolicy (Usr D : Type) := String → Option (ResourcePolicy Usr D)

/-- `PolicyDefinition` from `core/types`: `{ roles: { [roleName]: RolePolicy } }`. -/
structure PolicyDefinition (Usr D : Type) where
  roles : String → Option (RolePolicy Usr D)

/-- The JavaScript value found at `user.roles`: it may be `undefined`, `null`,
an array of strings, some other falsy value (`0`, `""`, `false`, `NaN`), or
some other truthy non-array value (a nonempty string, a number, an object). -/
inductive RolesVal where
  | undef
  | jsNull
  | arr (rs : List String)
  | otherFalsy
  | otherTruthy
deriving DecidableEq

/-- JavaScript truthiness of a `RolesVal`; every array, including the empty
array, is truthy. -/
def RolesVal.truthy : RolesVal → Bool
  | .arr _ => true
  | .otherTruthy => true
  | _ => false

/-- A caller as `AccessControl<TUser>` receives it: the `roles` attribute
(possibly malformed), plus the remaining attributes, which the evaluator never
inspects and only dynamic rules see. -/
structure JSUser (U : Type) where
  roles : RolesVal
  payload : U

/-- `AccessControl.evaluateCheck`: a boolean check is returned unchanged, a
function check is invoked with `(user, data)` (and may throw), and anything
else — in particular the `undefined` of a missing action key — yields `false`. -/
def evaluateCheck {Usr D : Type} (check : Option (PermissionCheck Usr D))
    (user : Usr) (data : Option D) : Except JSException Bool :=
  match check with
  | some (.static b) => Except.ok b
  | some (.dynamic f) => f user data
  | none => Except.ok false

/-- `AccessControl.checkRolePermission`: look up the role, then the resource,
returning `false` when either is missing, and finally evaluate whatever the
action key holds (possibly `undefined`). -/
def checkRolePermission {Usr D : Type} (policy : PolicyDefinition Usr D)
    (role resource action : String) (user : Usr) (data : Option D) :
    Except JSException Bool :=
  match policy.roles role with
  | none => Except.ok false
  | some rolePolicy =>
    match rolePolicy resource with
    | none => Except.ok false
    | some resourcePolicy => evaluateCheck (resourcePolicy action) user data

/-- `AccessControl.getUserRoles`: `(user as any).roles || []` — the `roles`
attribute when truthy, otherwise the empty array. -/
def getUserRoles {U : Type} (user : JSUser U) : RolesVal :=
  if user.roles.truthy then user.roles else RolesVal.arr []

/-- `Array.prototype.some` specialised to the role callback of
`hasPermission`: roles are tried left to right, the first `true`
short-circuits, and an exception thrown by the callback aborts the traversal
and propagates. -/
def someCheck {U D : Type} (policy : PolicyDefinition (JSUser U) D)
    (resource action : String) (user : JSUser U) (data : Option D) :
    List String → Except JSException Bool
  | [] => Except.ok false
  | role :: rest =>
    match checkRolePermission policy role resource action user data with
    | Except.error e => Except.error e
    | Except.ok true => Except.ok true
    | Except.ok false => someCheck policy resource action user data rest

/-- `AccessControl.hasPermission`: compute `getUserRoles user` and call
`.some` on the result; calling `.some` on a non-array raises a `TypeError`. -/
def hasPermission {U D : Type} (policy : PolicyDefinition (JSUser U) D)
    (user : JSUser U) (resource action : String) (data : Option D) :
    Except JSException Bool :=
  match getUserRoles user with
  | RolesVal.arr rs => someCheck policy resource action user data rs
  | _ => Except.error (JSException.typeError "roles.some is not a function")

/-- Three-layer lookup of the rule stored at `(role, resource, action)`,
following exactly the property accesses of `checkRolePermission`; `none`
is the "absent" result. -/
def lookupRule {Usr D : Type} (policy : PolicyDefinition Usr D)
    (role resource action : String) : Option (PermissionCheck Usr D) :=
  match policy.roles role with
  | none => none
  | some rolePolicy =>
    match rolePolicy resource with
    | none => none
    | some resourcePolicy => resourcePolicy action

/-- Lookup of the whole action map held for `(role, resource)`. -/
def lookupResourcePolicy {Usr D : Type} (policy : PolicyDefinition Usr D)
    (role resource : String) : Option (ResourcePolicy Usr D) :=
  match policy.roles role with
  | none => none
  | some rolePolicy => rolePolicy resource

/-- Assignment to one key of a JavaScript object; every other key is
unchanged. -/
def updateMap {α : Type} (m : String → Option α) (k : String) (v : α) :
    String → Option α :=
  fun k' => if k' = k then some v else m k'

/-- `PolicyBuilder.forRole`: create an empty role policy for `role` unless
one (however empty) is already present. -/
def forRole {Usr D : Type} (p : PolicyDefinition Usr D) (role : String) :
    PolicyDefinition Usr D :=
  match p.roles role with
  | some _ => p
  | none => { roles := updateMap p.roles role (fun _ => none) }

/-- `PolicyBuilder.updatePolicy`: ensure the role entry exists, then
overwrite the resource's action map wholesale. -/
def updatePolicy {Usr D : Type} (p : PolicyDefinition Usr D)
    (role resource : String) (actions : ResourcePolicy Usr D) :
    PolicyDefinition Usr D :=
  let rolePolicy :=
    match p.roles role with
    | some rp => rp
    | none => fun _ => none
  { roles := updateMap p.roles role (updateMap rolePolicy resource actions) }

/-- One full fluent step
`builder.forRole(role).onResource(resource).can(actions)`: `forRole` ensures
the role entry and `can` delegates to `updatePolicy`. -/
def declareStep {Usr D : Type} (p : PolicyDefinition Usr D)
    (role resource : String) (actions : ResourcePolicy Usr D) :
    PolicyDefinition Usr D :=
  updatePolicy (forRole p role) role resource actions

/-- Insert a single rule at `(role, resource, action)`, creating the
intermediate objects when missing and leaving every other entry alone. Used
to compare a store holding an explicit rule at one position with the store
lacking it. -/
def insertRule {Usr D : Type} (p : PolicyDefinition Usr D)
    (role resource action : String) (c : PermissionCheck Usr D) :
    PolicyDefinition Usr D :=
  let rolePolicy :=
    match p.roles role with
    | some rp => rp
    | none => fun _ => none
  let resourcePolicy :=
    match rolePolicy resource with
    | some sp => sp
    | none => fun _ => none
  { roles :=
      updateMap p.roles role
        (updateMap rolePolicy resource (updateMap resourcePolicy action c)) }

/-! Concrete stores and callers used as witnesses and counterexamples. -/

/-- Action map holding only the wildcard entry `{ "*": true }`. -/
def wildcardActions : ResourcePolicy (JSUser Unit) Unit :=
  fun a => if a = "*" then some (PermissionCheck.static true) else none

/-- Store declaring `admin → article → { "*": true }`, the api-reference's
"Admin can perform any action on articles" example. -/
def wildcardPolicy : PolicyDefinition (JSUser Unit) Unit :=
  ⟨fun r =>
    if r = "admin" then
      some (fun res => if res = "article" then some wildcardActions else none)
    else none⟩

/-- Action map holding both an action-specific rule and a wildcard rule:
`{ read: false, "*": true }`. -/
def bothActions : ResourcePolicy (JSUser Unit) Unit :=
  fun a =>
    if a = "read" then some (PermissionCheck.static false)
    else if a = "*" then some (PermissionCheck.static true)
    else none

/-- Resource map `{ article: bothActions }` for the role `author`. -/
def authorResources : RolePolicy (JSUser Unit) Unit :=
  fun res => if res = "article" then some bothActions else none

/-- Store declaring `author → article → { read: false, "*": true }`. -/
def bothPolicy : PolicyDefinition (JSUser Unit) Unit :=
  ⟨fun r => if r = "author" then some authorResources else none⟩

/-- A caller holding exactly the role `admin`. -/
def adminUser : JSUser Unit := ⟨RolesVal.arr ["admin"], ()⟩

/-- A caller holding exactly the role `author`. -/
def authorUser : JSUser Unit := ⟨RolesVal.arr ["author"], ()⟩

/-- A caller holding the roles `admin` and `ghost`, in that order. -/
def adminGhostUser : JSUser Unit := ⟨RolesVal.arr ["admin", "ghost"], ()⟩

/-- A caller with an empty roles array. -/
def noRolesUser : JSUser Unit := ⟨RolesVal.arr [], ()⟩

/-!  C1  -/

/-- C1: evaluating the store whose only entry for `(admin, article)` is the
wildcard rule `{ "*": true }` at the action `read` returns `false`:
`checkRolePermission` looks up the literal key `read` only and never falls
back to the `"*"` entry, so the wildcard grant does not apply to other
actions, contradicting the documented wildcard semantics. -/
theorem wildcard_entry_not_consulted :
    hasPermission wildcardPolicy adminUser "article" "read" none =
      Except.ok false := by
  rfl

/-!  C2  -/

/-- C2: when the action map held for `(role, resource)` contains both a rule
for the requested action and a wildcard rule under `"*"`, the role's verdict
is resolved from the action-specific rule; moreover the verdict is unchanged
when the wildcard rule is replaced by any other rule, so the wildcard rule is
not consulted. -/
theorem checkRolePermission_specific_over_wildcard {U D : Type}
    (policy : PolicyDefinition (JSUser U) D) (role resource action : String)
    (rp : RolePolicy (JSUser U) D) (sp : ResourcePolicy (JSUser U) D)
    (c cw cw' : PermissionCheck (JSUser U) D)
    (user : JSUser U) (data : Option D)
    (hrole : policy.roles role = some rp) (hres : rp resource = some sp)
    (hact : sp action = some c) (_hwild : sp "*" = some cw)
    (hne : action ≠ "*") :
    checkRolePermission policy role resource action user data =
      evaluateCheck (some c) user data ∧
    checkRolePermission (insertRule policy role resource "*" cw')
        role resource action user data =
      evaluateCheck (some c) user data := by
  constructor
  · simp [checkRolePermission, hrole, hres, hact]
  · simp [checkRolePermission, insertRule, updateMap, hrole, hres, hact, hne]

/-- Witness for C2 on the concrete store
`author → article → { read: false, "*": true }`: for the action `read` the
role's verdict is the action-specific `false`, even though the wildcard rule
grants. -/
theorem checkRolePermission_specific_over_wildcard_witness :
    checkRolePermission bothPolicy "author" "article" "read" authorUser none =
      @evaluateCheck (JSUser Unit) Unit (some (PermissionCheck.static false))
        authorUser none :=
  (checkRolePermission_specific_over_wildcard bothPolicy "author" "article"
    "read" authorResources bothActions (PermissionCheck.static false)
    (PermissionCheck.static true) (PermissionCheck.static true) authorUser none
    rfl rfl rfl rfl (by decide)).1

/-!  C10  -/

/-- Per-role rule resolution is exactly a three-layer key lookup followed by
`evaluateCheck`, for every action string. -/
theorem checkRolePermission_eq_lookupRule {Usr D : Type}
    (policy : PolicyDefinition Usr D) (role resource action : String)
    (user : Usr) (data : Option D) :
    checkRolePermission policy role resource action user data =
      evaluateCheck (lookupRule policy role resource action) user data := by
  cases hr : policy.roles role with
  | none => simp [checkRolePermission, lookupRule, hr, evaluateCheck]
  | some rolePolicy =>
    cases hres : rolePolicy resource with
    | none => simp [checkRolePermission, lookupRule, hr, hres, evaluateCheck]
    | some resourcePolicy => simp [checkRolePermission, lookupRule, hr, hres]

/-- C10: the evaluator treats the wildcard token as an ordinary action key —
a request for the literal action `"*"` resolves the rule stored under the key
`"*"` through the same lookup path as any other action, so at the public
interface a user-chosen action named `"*"` is indistinguishable from the
reserved wildcard entry. -/
theorem wildcard_action_is_ordinary_key {U D : Type}
    (policy : PolicyDefinition (JSUser U) D) (role resource : String)
    (user : JSUser U) (data : Option D) :
    checkRolePermission policy role resource "*" user data =
      evaluateCheck (lookupRule policy role resource "*") user data :=
  checkRolePermission_eq_lookupRule policy role resource "*" user data

/-!  Helper lemmas about the role traversal. -/

/-- Provided every role's check resolves to a verdict (no fault), the
traversal returns `true` exactly when some role's check returns `true`. -/
theorem someCheck_true_iff {U D : Type} (policy : PolicyDefinition (JSUser U) D)
    (resource action : String) (user : JSUser U) (data : Option D)
    (rs : List String)
    (hnf : ∀ role ∈ rs, ∃ b,
      checkRolePermission policy role resource action user data = Except.ok b) :
    someCheck policy resource action user data rs = Except.ok true ↔
      ∃ role ∈ rs,
        checkRolePermission policy role resource action user data =
          Except.ok true := by
  induction rs with
  | nil => simp [someCheck]
  | cons r rest ih =>
    obtain ⟨b, hb⟩ := hnf r (by simp)
    have ih' := ih (fun role hrole => hnf role (by simp [hrole]))
    cases b with
    | true => simp [someCheck, hb]
    | false => simp [someCheck, hb, ih']

/-- The traversal returns `false` exactly when every role's check returns
`false` (a fault or a grant anywhere aborts with that outcome instead). -/
theorem someCheck_false_iff {U D : Type} (policy : PolicyDefinition (JSUser U) D)
    (resource action : String) (user : JSUser U) (data : Option D)
    (rs : List String) :
    someCheck policy resource action user data rs = Except.ok false ↔
      ∀ role ∈ rs,
        checkRolePermission policy role resource action user data =
          Except.ok false := by
  induction rs with
  | nil => simp [someCheck]
  | cons r rest ih =>
    cases hb : checkRolePermission policy r resource action user data with
    | error e => simp [someCheck, hb]
    | ok b =>
      cases b with
      | true => simp [someCheck, hb]
      | false => simp [someCheck, hb, ih]

/-!  C3  -/

/-- C3: provided every held role's check resolves to a verdict,
`hasPermission` grants exactly when some role's check grants; with an empty
role list it denies immediately, and it denies exactly when every role's
check denies. -/
theorem hasPermission_or_aggregation {U D : Type}
    (policy : PolicyDefinition (JSUser U) D) (user : JSUser U)
    (resource action : String) (data : Option D) (rs : List String)
    (hroles : getUserRoles user = RolesVal.arr rs)
    (hnf : ∀ role ∈ rs, ∃ b,
      checkRolePermission policy role resource action user data = Except.ok b) :
    (hasPermission policy user resource action data = Except.ok true ↔
      ∃ role ∈ rs,
        checkRolePermission policy role resource action user data =
          Except.ok true) ∧
    (rs = [] → hasPermission policy user resource action data =
      Except.ok false) ∧
    (hasPermission policy user resource action data = Except.ok false ↔
      ∀ role ∈ rs,
        checkRolePermission policy role resource action user data =
          Except.ok false) := by
  have hps : hasPermission policy user resource action data =
      someCheck policy resource action user data rs := by
    simp [hasPermission, hroles]
  refine ⟨?_, ?_, ?_⟩
  · rw [hps]
    exact someCheck_true_iff policy resource action user data rs hnf
  · intro hnil
    subst hnil
    rw [hps]
    rfl
  · rw [hps]
    exact someCheck_false_iff policy resource action user data rs

/-- Witness for C3: a caller with an empty roles array is denied on the
concrete store `bothPolicy`. -/
theorem hasPermission_or_aggregation_witness :
    hasPermission bothPolicy noRolesUser "article" "read" none =
      Except.ok false :=
  (hasPermission_or_aggregation bothPolicy noRolesUser "article" "read" none []
    rfl (by simp)).2.1 rfl

/-- Inserting an explicit static `false` rule at a position where the lookup
is absent changes no role's verdict, at any `(role, resource, action)`
request. -/
theorem checkRolePermission_insert_false_eq {U D : Type}
    (p : PolicyDefinition (JSUser U) D) (role resource action : String)
    (habs : lookupRule p role resource action = none)
    (role' resource' action' : String) (user : JSUser U) (data : Option D) :
    checkRolePermission
        (insertRule p role resource action (PermissionCheck.static false))
        role' resource' action' user data =
      checkRolePermission p role' resource' action' user data := by
  by_cases hrr : role' = role
  · subst hrr
    cases hr : p.roles role' with
    | none =>
      by_cases hss : resource' = resource
      · subst hss
        by_cases haa : action' = action
        · subst haa
          simp [checkRolePermission, insertRule, updateMap, hr, evaluateCheck]
        · simp [checkRolePermission, insertRule, updateMap, hr, haa,
            evaluateCheck]
      · simp [checkRolePermission, insertRule, updateMap, hr, hss,
          evaluateCheck]
    | some rp =>
      cases hres : rp resource with
      | none =>
        by_cases hss : resource' = resource
        · subst hss
          by_cases haa : action' = action
          · subst haa
            simp [checkRolePermission, insertRule, updateMap, hr, hres,
              evaluateCheck]
          · simp [checkRolePermission, insertRule, updateMap, hr, hres, haa,
              evaluateCheck]
        · simp [checkRolePermission, insertRule, updateMap, hr, hss,
            evaluateCheck]
      | some sp =>
        have hact : sp action = none := by
          simpa [lookupRule, hr, hres] using habs
        by_cases hss : resource' = resource
        · subst hss
          by_cases haa : action' = action
          · subst haa
            simp [checkRolePermission, insertRule, updateMap, hr, hres, hact,
              evaluateCheck]
          · simp [checkRolePermission, insertRule, updateMap, hr, hres, haa,
              evaluateCheck]
        · simp [checkRolePermission, insertRule, updateMap, hr, hss,
            evaluateCheck]
  · simp [checkRolePermission, insertRule, updateMap, hrr]

/-- Two stores whose per-role checks agree produce the same traversal
outcome. -/
theorem someCheck_congr {U D : Type}
    (p q : PolicyDefinition (JSUser U) D) (resource action : String)
    (user : JSUser U) (data : Option D)
    (h : ∀ role, checkRolePermission p role resource action user data =
      checkRolePermission q role resource action user data) :
    ∀ rs : List String, someCheck p resource action user data rs =
      someCheck q resource action user data rs := by
  intro rs
  induction rs with
  | nil => rfl
  | cons r rest ih => simp only [someCheck, h r, ih]

/-!  C4  -/

/-- C4: when the lookup at `(role, resource, action)` is absent the role's
check returns `false` for every caller; adding an explicit static `false`
rule at that position leaves `hasPermission` unchanged on all inputs; and a
caller all of whose roles are undeclared is denied on every request. -/
theorem absence_is_deny_and_equals_static_deny {U D : Type}
    (p : PolicyDefinition (JSUser U) D) (role resource action : String)
    (habs : lookupRule p role resource action = none) :
    (∀ (user : JSUser U) (data : Option D),
      checkRolePermission p role resource action user data =
        Except.ok false) ∧
    (∀ (user : JSUser U) (resource' action' : String) (data : Option D),
      hasPermission
          (insertRule p role resource action (PermissionCheck.static false))
          user resource' action' data =
        hasPermission p user resource' action' data) ∧
    (∀ (user : JSUser U) (rs : List String) (resource' action' : String)
      (data : Option D),
      getUserRoles user = RolesVal.arr rs →
      (∀ r ∈ rs, p.roles r = none) →
      hasPermission p user resource' action' data = Except.ok false) := by
  refine ⟨?_, ?_, ?_⟩
  · intro user data
    rw [checkRolePermission_eq_lookupRule, habs]
    rfl
  · intro user resource' action' data
    unfold hasPermission
    cases hu : getUserRoles user with
    | arr rs =>
      exact someCheck_congr _ p resource' action' user data
        (fun r => checkRolePermission_insert_false_eq p role resource action
          habs r resource' action' user data) rs
    | undef => rfl
    | jsNull => rfl
    | otherFalsy => rfl
    | otherTruthy => rfl
  · intro user rs resource' action' data hroles hundecl
    have : hasPermission p user resource' action' data =
        someCheck p resource' action' user data rs := by
      simp [hasPermission, hroles]
    rw [this, someCheck_false_iff]
    intro r hr
    simp [checkRolePermission, hundecl r hr]

/-- Witness for C4: on `bothPolicy` the role `ghost` is undeclared, so its
check at `(article, read)` denies. -/
theorem absence_is_deny_witness :
    checkRolePermission bothPolicy "ghost" "article" "read" authorUser none =
      Except.ok false :=
  (absence_is_deny_and_equals_static_deny bothPolicy "ghost" "article" "read"
    rfl).1 authorUser none

/-- If every role before `role` in the traversal denies and `role`'s check
throws `e`, the traversal aborts with exactly `e`. -/
theorem someCheck_error_of_prefix {U D : Type}
    (policy : PolicyDefinition (JSUser U) D) (resource action : String)
    (user : JSUser U) (data : Option D) :
    ∀ (l₁ : List String) (role : String) (l₂ : List String) (e : JSException),
    (∀ r ∈ l₁, checkRolePermission policy r resource action user data =
      Except.ok false) →
    checkRolePermission policy role resource action user data =
      Except.error e →
    someCheck policy resource action user data (l₁ ++ role :: l₂) =
      Except.error e := by
  intro l₁
  induction l₁ with
  | nil =>
    intro role l₂ e _ hfault
    simp [someCheck, hfault]
  | cons r rest ih =>
    intro role l₂ e hprev hfault
    have hr : checkRolePermission policy r resource action user data =
        Except.ok false := hprev r (by simp)
    simpa [someCheck, hr] using
      ih role l₂ e (fun x hx => hprev x (by simp [hx])) hfault

/-!  C5  -/

/-- C5: if the caller's role list splits as `l₁ ++ role :: l₂` where every
role of `l₁` denies and `role`'s matched rule throws `e`, then
`hasPermission` surfaces exactly `e`: the fault propagates unmodified and in
particular is never converted into a deny. -/
theorem predicate_fault_propagates {U D : Type}
    (policy : PolicyDefinition (JSUser U) D) (user : JSUser U)
    (resource action : String) (data : Option D)
    (l₁ : List String) (role : String) (l₂ : List String) (e : JSException)
    (hroles : getUserRoles user = RolesVal.arr (l₁ ++ role :: l₂))
    (hprev : ∀ r ∈ l₁, checkRolePermission policy r resource action user data =
      Except.ok false)
    (hfault : checkRolePermission policy role resource action user data =
      Except.error e) :
    hasPermission policy user resource action data = Except.error e ∧
    hasPermission policy user resource action data ≠ Except.ok false := by
  have herr : hasPermission policy user resource action data =
      Except.error e := by
    simp only [hasPermission, hroles]
    exact someCheck_error_of_prefix policy resource action user data l₁ role l₂
      e hprev hfault
  exact ⟨herr, by simp [herr]⟩

/-- Action map whose `read` rule is a dynamic predicate that always throws. -/
def throwingActions : ResourcePolicy (JSUser Unit) Unit :=
  fun a =>
    if a = "read" then
      some (PermissionCheck.dynamic
        (fun _ _ => Except.error (JSException.thrown "boom")))
    else none

/-- Store declaring `author → article → { read: <throwing predicate> }`. -/
def throwingPolicy : PolicyDefinition (JSUser Unit) Unit :=
  ⟨fun r =>
    if r = "author" then
      some (fun res => if res = "article" then some throwingActions else none)
    else none⟩

/-- Witness for C5: the thrown value `boom` surfaces unmodified out of
`hasPermission` on the concrete throwing store. -/
theorem predicate_fault_propagates_witness :
    hasPermission throwingPolicy authorUser "article" "read" none =
      Except.error (JSException.thrown "boom") :=
  (predicate_fault_propagates throwingPolicy authorUser "article" "read" none
    [] "author" [] (JSException.thrown "boom") rfl (by simp) rfl).1

/-!  C6  -/

/-- A caller whose `roles` attribute is a truthy non-array value (for
instance the string `"admin"`). -/
def badRolesUser : JSUser Unit := ⟨RolesVal.otherTruthy, ()⟩

/-- C6 counterexample: for a caller whose `roles` attribute is a truthy
non-array value, `hasPermission` does not return deny — `getUserRoles`
passes the value through (`roles || []` keeps any truthy value) and calling
`.some` on it raises a `TypeError`, so the decision faults instead of
treating the caller as having zero roles. -/
theorem malformed_roles_faults :
    hasPermission bothPolicy badRolesUser "article" "read" none =
      Except.error (JSException.typeError "roles.some is not a function") ∧
    hasPermission bothPolicy badRolesUser "article" "read" none ≠
      Except.ok false := by
  have h : hasPermission bothPolicy badRolesUser "article" "read" none =
      Except.error (JSException.typeError "roles.some is not a function") :=
    rfl
  exact ⟨h, by rw [h]; exact fun hc => Except.noConfusion hc⟩

/-- C6 amended: a caller whose `roles` attribute is missing, `null`, or any
other falsy value is treated as having zero roles and is denied on every
store, resource, action and instance, without faulting; only a truthy
non-array `roles` value escapes this treatment (and faults, as the
counterexample shows). -/
theorem falsy_roles_deny {U D : Type} (policy : PolicyDefinition (JSUser U) D)
    (payload : U) (rv : RolesVal) (resource action : String) (data : Option D)
    (h : rv = RolesVal.undef ∨ rv = RolesVal.jsNull ∨
      rv = RolesVal.otherFalsy) :
    hasPermission policy ⟨rv, payload⟩ resource action data =
      Except.ok false := by
  rcases h with h | h | h <;> subst h <;> rfl

/-- Witness for C6's amended statement: a caller with an `undefined` roles
attribute is denied on the concrete store `bothPolicy`. -/
theorem falsy_roles_deny_witness :
    hasPermission bothPolicy ⟨RolesVal.undef, ()⟩ "article" "read" none =
      Except.ok false :=
  falsy_roles_deny bothPolicy () RolesVal.undef "article" "read" none
    (Or.inl rfl)

/-!  C7  -/

/-- Action map whose `read` rule is a dynamic predicate granting exactly when
the caller holds a single role — dynamic rules receive the full user value,
so nothing stops them from inspecting `user.roles`. -/
def rolesCountingActions : ResourcePolicy (JSUser Unit) Unit :=
  fun a =>
    if a = "read" then
      some (PermissionCheck.dynamic (fun u _ =>
        Except.ok (match u.roles with
          | RolesVal.arr rs => rs.length == 1
          | _ => false)))
    else none

/-- Store declaring `author → article → { read: <single-role predicate> }`. -/
def rolesCountingPolicy : PolicyDefinition (JSUser Unit) Unit :=
  ⟨fun r =>
    if r = "author" then
      some (fun res =>
        if res = "article" then some rolesCountingActions else none)
    else none⟩

/-- A caller holding the roles `author` and `ghost`, in that order. -/
def authorGhostUser : JSUser Unit := ⟨RolesVal.arr ["author", "ghost"], ()⟩

/-- C7 counterexample: on `rolesCountingPolicy` the caller with role list
`["author"]` is granted `read` on `article`, yet extending the role list to
`["author", "ghost"]` flips the decision to deny — the matched dynamic rule
sees the extended `user.roles`, so adding a role can turn a grant into a
deny. -/
theorem role_union_not_monotone :
    hasPermission rolesCountingPolicy authorUser "article" "read" none =
      Except.ok true ∧
    hasPermission rolesCountingPolicy authorGhostUser "article" "read" none =
      Except.ok false :=
  ⟨rfl, rfl⟩

/-- If the traversal over `rs` grants for `user` and the per-role checks for
`user'` agree with those for `user` on `rs`, then the traversal for `user'`
over `rs` extended by any further roles also grants. -/
theorem someCheck_true_of_extended {U D : Type}
    (policy : PolicyDefinition (JSUser U) D) (resource action : String)
    (user user' : JSUser U) (data : Option D) :
    ∀ rs : List String,
    (∀ role ∈ rs, checkRolePermission policy role resource action user' data =
      checkRolePermission policy role resource action user data) →
    someCheck policy resource action user data rs = Except.ok true →
    ∀ extra : List String,
      someCheck policy resource action user' data (rs ++ extra) =
        Except.ok true := by
  intro rs
  induction rs with
  | nil =>
    intro _ hgrant
    exact absurd hgrant (by simp [someCheck])
  | cons r rest ih =>
    intro hagree hgrant extra
    have hr' : checkRolePermission policy r resource action user' data =
        checkRolePermission policy r resource action user data :=
      hagree r (by simp)
    cases hb : checkRolePermission policy r resource action user data with
    | error e => simp [someCheck, hb] at hgrant
    | ok b =>
      cases b with
      | true => simp [someCheck, hr', hb]
      | false =>
        have hrest : someCheck policy resource action user data rest =
            Except.ok true := by simpa [someCheck, hb] using hgrant
        simpa [someCheck, hr', hb] using
          ih (fun role hrole => hagree role (by simp [hrole])) hrest extra

/-- C7 amended: extending the caller's role list with an additional role
never changes a grant into a deny, provided the matched rules' verdicts for
the already-held roles are unchanged by the extension — automatic whenever no
dynamic rule inspects the caller's role list; a rule that does inspect it can
flip grant to deny, as the counterexample shows. -/
theorem role_union_monotone_for_role_blind_rules {U D : Type}
    (policy : PolicyDefinition (JSUser U) D) (user user' : JSUser U)
    (rs : List String) (newRole resource action : String) (data : Option D)
    (hu : getUserRoles user = RolesVal.arr rs)
    (hu' : getUserRoles user' = RolesVal.arr (rs ++ [newRole]))
    (hagree : ∀ role ∈ rs,
      checkRolePermission policy role resource action user' data =
        checkRolePermission policy role resource action user data)
    (hgrant : hasPermission policy user resource action data = Except.ok true) :
    hasPermission policy user' resource action data = Except.ok true := by
  have hg : someCheck policy resource action user data rs = Except.ok true := by
    simpa [hasPermission, hu] using hgrant
  simp only [hasPermission, hu']
  exact someCheck_true_of_extended policy resource action user user' data rs
    hagree hg [newRole]

/-- Witness for C7's amended statement: on the wildcard store, the grant of
`(article, "*")` for the role list `["admin"]` is preserved after appending
the role `ghost`. -/
theorem role_union_monotone_witness :
    hasPermission wildcardPolicy adminGhostUser "article" "*" none =
      Except.ok true :=
  role_union_monotone_for_role_blind_rules wildcardPolicy adminUser
    adminGhostUser ["admin"] "ghost" "article" "*" none rfl rfl
    (by
      intro role hrole
      simp only [List.mem_singleton] at hrole
      subst hrole
      rfl) rfl

/-!  C8  -/

/-- C8: declaring action maps `m1` then `m2` for the same `(role, resource)`
pair through the fluent chain leaves exactly `m2` in effect — the second
declaration replaces the first wholesale — while the action map held for
every other `(role, resource)` pair is unchanged. -/
theorem declare_last_write_wins {Usr D : Type} (p : PolicyDefinition Usr D)
    (role resource role' resource' : String)
    (m1 m2 : ResourcePolicy Usr D)
    (h : role' ≠ role ∨ resource' ≠ resource) :
    lookupResourcePolicy
        (declareStep (declareStep p role resource m1) role resource m2)
        role resource = some m2 ∧
    lookupResourcePolicy
        (declareStep (declareStep p role resource m1) role resource m2)
        role' resource' = lookupResourcePolicy p role' resource' := by
  constructor
  · cases hp : p.roles role with
    | none =>
      simp [declareStep, forRole, updatePolicy, updateMap,
        lookupResourcePolicy, hp]
    | some rp =>
      simp [declareStep, forRole, updatePolicy, updateMap,
        lookupResourcePolicy, hp]
  · by_cases hrr : role' = role
    · subst hrr
      have hss : resource' ≠ resource := by
        rcases h with h | h
        · exact absurd rfl h
        · exact h
      cases hp : p.roles role' with
      | none =>
        simp [declareStep, forRole, updatePolicy, updateMap,
          lookupResourcePolicy, hp, hss]
      | some rp =>
        simp [declareStep, forRole, updatePolicy, updateMap,
          lookupResourcePolicy, hp, hss]
    · cases hp : p.roles role with
      | none =>
        simp [declareStep, forRole, updatePolicy, updateMap,
          lookupResourcePolicy, hp, hrr]
      | some rp =>
        simp [declareStep, forRole, updatePolicy, updateMap,
          lookupResourcePolicy, hp, hrr]

/-- Witness for C8: re-declaring `(author, article)` on the concrete store
`bothPolicy`, first with the wildcard-only map and then with the throwing
map, leaves exactly the throwing map, and the undeclared pair
`(teacher, article)` stays absent. -/
theorem declare_last_write_wins_witness :
    lookupResourcePolicy
        (declareStep (declareStep bothPolicy "author" "article"
          wildcardActions) "author" "article" throwingActions)
        "author" "article" = some throwingActions ∧
    lookupResourcePolicy
        (declareStep (declareStep bothPolicy "author" "article"
          wildcardActions) "author" "article" throwingActions)
        "teacher" "article" =
      lookupResourcePolicy bothPolicy "teacher" "article" :=
  declare_last_write_wins bothPolicy "author" "article" "teacher" "article"
    wildcardActions throwingActions (Or.inl (by decide))

/-!  C9  -/

/-- C9: calling `forRole` on a role that is already declared — whatever
resources it already holds, even none — returns the builder's policy
unchanged. -/
theorem forRole_idempotent {Usr D : Type} (p : PolicyDefinition Usr D)
    (role : String) (rp : RolePolicy Usr D) (h : p.roles role = some rp) :
    forRole p role = p := by
  simp [forRole, h]

/-- Witness for C9: re-declaring the already-declared role `author` on the
concrete store `bothPolicy` leaves the policy untouched. -/
theorem forRole_idempotent_witness : forRole bothPolicy "author" = bothPolicy :=
  forRole_idempotent bothPolicy "author" authorResources rfl

end DrakonisGuard
